import Mathlib

/-!
Verification development for the `python-devtools` live-introspection core.

The Python source is shallowly embedded as follows:

* Python objects live on an explicit heap (`Heap := List Cell`); an object
  reference is its index (`Addr`), which plays the role of CPython `id()`.
* The registered namespaces (`dict[str, object]`) become an association list
  `NS := List (String × Addr)` from root names to heap addresses.
* Fallible Python code is embedded in `Except PyErr`; a caught exception
  corresponds to matching on the `.error` case, an uncaught one to returning
  `.error` to the caller.
* `eval(path, ...)` (CPython's evaluator, an external collaborator of this
  repository) is modelled by a small definitional interpreter `pyEval` over
  the attribute/index/literal fragment of Python expressions actually used
  for paths and value expressions.  Builtins (`len`, calls), whitespace and
  operator syntax are outside the modelled fragment and evaluate to an error,
  like any other unresolvable expression.
* repr of builtin values (CPython internal) is modelled by a deterministic
  total function `pyRepr`; object default reprs drop the memory address.
  Method attributes of builtin containers and the attribute surface of
  scalars (`int.real`, ...) are not modelled: only `vobj` cells carry
  attributes, which is the mechanism the source manipulates.
-/

/-- Object-identity address into the heap, playing the role of `id()`. -/
abbrev Addr := Nat

/-- A Python value as stored on the heap.  Containers hold addresses, so
    aliasing and cycles are represented exactly as in CPython. -/
inductive Cell where
  | vint (n : Int)
  | vstr (s : String)
  | vbool (b : Bool)
  | vnone
  | vdict (entries : List (Addr × Addr))
  | vlist (items : List Addr)
  | vset (items : List Addr)
  | vobj (cls : String) (attrs : List (String × Addr))
  | vfun (fid : String) (src : Option (String × Nat × String))
deriving DecidableEq, Repr

abbrev Heap := List Cell

/-- Registered namespaces: name → root object address. -/
abbrev NS := List (String × Addr)

/-- The Python exceptions that the embedded code can raise or catch. -/
inductive PyErr where
  | nameErr (s : String)
  | attrErr (s : String)
  | keyErr (s : String)
  | idxErr
  | typeErr (s : String)
  | synErr
  | valErr (s : String)
  | permErr (s : String)
  | rtErr (s : String)
deriving DecidableEq, Repr

/-- `type(e).__qualname__` for the modelled exceptions. -/
def errType : PyErr → String
  | .nameErr _ => "NameError"
  | .attrErr _ => "AttributeError"
  | .keyErr _ => "KeyError"
  | .idxErr => "IndexError"
  | .typeErr _ => "TypeError"
  | .synErr => "SyntaxError"
  | .valErr _ => "ValueError"
  | .permErr _ => "PermissionError"
  | .rtErr _ => "RuntimeError"

/-- `str(e)` for the modelled exceptions (modelled message text). -/
def errMsg : PyErr → String
  | .nameErr s => "name '" ++ s ++ "' is not defined"
  | .attrErr s => "object has no attribute '" ++ s ++ "'"
  | .keyErr s => "'" ++ s ++ "'"
  | .idxErr => "index out of range"
  | .typeErr s => s
  | .synErr => "invalid syntax"
  | .valErr s => s
  | .permErr s => s
  | .rtErr s => s

/-- `type(obj).__qualname__` of the cell at an address. -/
def cellType (h : Heap) (a : Addr) : String :=
  match h.get? a with
  | some (.vint _) => "int"
  | some (.vstr _) => "str"
  | some (.vbool _) => "bool"
  | some .vnone => "NoneType"
  | some (.vdict _) => "dict"
  | some (.vlist _) => "list"
  | some (.vset _) => "set"
  | some (.vobj cls _) => cls
  | some (.vfun _ _) => "function"
  | none => "<invalid>"

/-- `len(obj)` for sized containers (`Mapping`/`Sequence`/`Set`, excluding
    `str`/`bytes` exactly as the `isinstance` guards do). -/
def lenOf (h : Heap) (a : Addr) : Option Nat :=
  match h.get? a with
  | some (.vdict es) => some es.length
  | some (.vlist xs) => some xs.length
  | some (.vset xs) => some xs.length
  | _ => none

/-- Modelled CPython `repr` of heap values, fuel-bounded (CPython's own
    cycle handling in repr is not load-bearing for any claim). -/
def pyReprA (h : Heap) : Nat → Addr → String
  | 0, _ => "..."
  | fuel + 1, a =>
    match h.get? a with
    | some (.vint n) => toString n
    | some (.vstr s) => "'" ++ s ++ "'"
    | some (.vbool b) => if b then "True" else "False"
    | some .vnone => "None"
    | some (.vlist xs) =>
        "[" ++ String.intercalate ", " (xs.map (pyReprA h fuel)) ++ "]"
    | some (.vdict es) =>
        "\x7b" ++ String.intercalate ", "
          (es.map fun kv => pyReprA h fuel kv.1 ++ ": " ++ pyReprA h fuel kv.2) ++ "\x7d"
    | some (.vset xs) =>
        if xs.isEmpty then "set()"
        else "\x7b" ++ String.intercalate ", " (xs.map (pyReprA h fuel)) ++ "\x7d"
    | some (.vobj cls _) => "<" ++ cls ++ " object>"
    | some (.vfun fid _) => "<function " ++ fid ++ ">"
    | none => "<invalid ref>"

def pyRepr (h : Heap) (a : Addr) : String := pyReprA h (h.length + 1) a

/-- Python slice `r[:m]` including the negative-index convention. -/
def pyCut (r : String) (m : Int) : String :=
  if 0 ≤ m then ⟨r.data.take m.toNat⟩
  else ⟨r.data.take (r.length - (-m).toNat)⟩

/-- `_safe_repr(obj, maxlen)`: repr with truncation.  (In the model `repr`
    itself never fails, so the repr-error branch is unreachable.) -/
def safeRepr (h : Heap) (a : Addr) (maxlen : Nat) : String :=
  let r := pyRepr h a
  if r.length > maxlen then pyCut r ((maxlen : Int) - 3) ++ "..." else r

/-- Value equality used for dict keys; scalars compare by value, other
    objects by identity (default `__eq__`), which covers every hashable
    key shape the claims exercise. -/
def pyKeyEq (h : Heap) (a b : Addr) : Bool :=
  a == b ||
    match h.get? a, h.get? b with
    | some (.vint x), some (.vint y) => x == y
    | some (.vstr x), some (.vstr y) => x == y
    | some (.vbool x), some (.vbool y) => x == y
    | some .vnone, some .vnone => true
    | _, _ => false

/-! ### The path-expression fragment of `eval` -/

/-- Parsed path expressions: names, int/str literals, attribute access and
    subscripting — the fragment of Python expressions the devtools paths
    use (`resolve`'s docstring examples minus calls). -/
inductive PExpr where
  | name (s : String)
  | intLit (n : Int)
  | strLit (s : String)
  | attr (e : PExpr) (field : String)
  | index (e : PExpr) (i : PExpr)
deriving Repr

def isIdStart (c : Char) : Bool := c.isAlpha || c == '_'
def isIdChar (c : Char) : Bool := c.isAlphanum || c == '_'

def takeIdent : List Char → Option (String × List Char)
  | [] => none
  | c :: rest =>
    if isIdStart c then
      let p := rest.span isIdChar
      some (⟨c :: p.1⟩, p.2)
    else none

def digitsVal (ds : List Char) : Nat :=
  ds.foldl (fun acc c => acc * 10 + (c.toNat - '0'.toNat)) 0

def takeInt : List Char → Option (Int × List Char)
  | [] => none
  | c :: rest =>
    if c == '-' then
      match rest with
      | d :: _ =>
        if d.isDigit then
          let p := rest.span Char.isDigit
          some (-(digitsVal p.1 : Int), p.2)
        else none
      | [] => none
    else if c.isDigit then
      let p := (c :: rest).span Char.isDigit
      some ((digitsVal p.1 : Int), p.2)
    else none

def takeStrLit : List Char → Option (String × List Char)
  | [] => none
  | q :: rest =>
    if q == '\'' || q == '"' then
      let p := rest.span (· != q)
      match p.2 with
      | _ :: r2 => some (⟨p.1⟩, r2)
      | [] => none
    else none

def parseAtom (cs : List Char) : Option (PExpr × List Char) :=
  match takeIdent cs with
  | some (s, rest) => some (.name s, rest)
  | none =>
    match takeStrLit cs with
    | some (s, rest) => some (.strLit s, rest)
    | none =>
      match takeInt cs with
      | some (n, rest) => some (.intLit n, rest)
      | none => none

mutual

def parseE : Nat → List Char → Option (PExpr × List Char)
  | 0, _ => none
  | fuel + 1, cs =>
    match parseAtom cs with
    | some (e, rest) => parseSuf fuel e rest
    | none => none

def parseSuf : Nat → PExpr → List Char → Option (PExpr × List Char)
  | 0, _, _ => none
  | fuel + 1, e, cs =>
    match cs with
    | '.' :: rest =>
      match takeIdent rest with
      | some (f, rest2) => parseSuf fuel (.attr e f) rest2
      | none => none
    | '[' :: rest =>
      match parseE fuel rest with
      | some (i, rest2) =>
        match rest2 with
        | ']' :: rest3 => parseSuf fuel (.index e i) rest3
        | _ => none
      | none => none
    | _ => some (e, cs)

end

/-- Parse a whole path/value expression; anything outside the modelled
    fragment is a syntax error, as is trailing garbage. -/
def pyParse (s : String) : Option PExpr :=
  match parseE (2 * s.length + 2) s.data with
  | some (e, []) => some e
  | _ => none

/-- `getattr(obj, name)`: only `vobj` cells expose (non-method) attributes. -/
def getattrE (h : Heap) (a : Addr) (f : String) : Except PyErr Addr :=
  match h.get? a with
  | some (.vobj _ attrs) =>
    match attrs.lookup f with
    | some v => .ok v
    | none => .error (.attrErr f)
  | _ => .error (.attrErr f)

/-- `obj[key]` for dicts, lists and strings; sets and the rest are not
    subscriptable.  String indexing allocates the character string. -/
def getitemE (h : Heap) (a k : Addr) : Except PyErr (Addr × Heap) :=
  match h.get? a with
  | some (.vdict es) =>
    match es.find? (fun kv => pyKeyEq h kv.1 k) with
    | some kv => .ok (kv.2, h)
    | none => .error (.keyErr (pyRepr h k))
  | some (.vlist xs) =>
    match h.get? k with
    | some (.vint n) =>
      let idx : Int := if n < 0 then n + xs.length else n
      if hlt : 0 ≤ idx ∧ idx.toNat < xs.length then
        .ok (xs.get ⟨idx.toNat, hlt.2⟩, h)
      else .error .idxErr
    | _ => .error (.typeErr "list indices must be integers")
  | some (.vstr s) =>
    match h.get? k with
    | some (.vint n) =>
      let idx : Int := if n < 0 then n + s.length else n
      if hlt : 0 ≤ idx ∧ idx.toNat < s.data.length then
        .ok (h.length, h ++ [.vstr ⟨[s.data.get ⟨idx.toNat, hlt.2⟩]⟩])
      else .error .idxErr
    | _ => .error (.typeErr "string indices must be integers")
  | _ => .error (.typeErr "object is not subscriptable")

/-- Evaluate a parsed expression against the namespaces; literals allocate
    fresh objects on the heap, traversal returns existing addresses. -/
def evalExpr : PExpr → NS → Heap → Except PyErr (Addr × Heap)
  | .name s, ns, h =>
    match ns.lookup s with
    | some a => .ok (a, h)
    | none => .error (.nameErr s)
  | .intLit n, _, h => .ok (h.length, h ++ [.vint n])
  | .strLit s, _, h => .ok (h.length, h ++ [.vstr s])
  | .attr e f, ns, h => do
    let (a, h1) ← evalExpr e ns h
    let v ← getattrE h1 a f
    .ok (v, h1)
  | .index e i, ns, h => do
    let (a, h1) ← evalExpr e ns h
    let (k, h2) ← evalExpr i ns h1
    getitemE h2 a k

/-- `eval(expr, globals, namespaces)` on the modelled fragment — this is
    `resolve(path, namespaces)` from `_resolve.py`. -/
def pyEval (s : String) (ns : NS) (h : Heap) : Except PyErr (Addr × Heap) :=
  match pyParse s with
  | some e => evalExpr e ns h
  | none => .error .synErr

/-! ### Bounded, cycle-safe serialization (`_serialize_obj`) -/

/-- One `{name, type, repr}` attribute row. -/
structure SAttr where
  name : String
  type : String
  repr : String
deriving DecidableEq, Repr

/-- A Serialized Node: always `type` and `repr`, optionally `length`, one of
    `entries`/`items`/`attrs`, and `truncated`.  An absent dict key is
    `none`. -/
inductive Node where
  | mk (type : String) (repr : String) (length : Option Nat)
       (entries : Option (List (String × Node)))
       (items : Option (List Node))
       (attrs : Option (List SAttr))
       (truncated : Option Bool)
deriving Repr

def Node.type : Node → String | .mk t _ _ _ _ _ _ => t
def Node.repr : Node → String | .mk _ r _ _ _ _ _ => r
def Node.length : Node → Option Nat | .mk _ _ l _ _ _ _ => l
def Node.entries : Node → Option (List (String × Node)) | .mk _ _ _ e _ _ _ => e
def Node.items : Node → Option (List Node) | .mk _ _ _ _ i _ _ => i
def Node.attrs : Node → Option (List SAttr) | .mk _ _ _ _ _ a _ => a
def Node.truncated : Node → Option Bool | .mk _ _ _ _ _ _ t => t

/-- The number of serialized children a node carries. -/
def Node.childCount (n : Node) : Nat :=
  match n.entries, n.items with
  | some es, _ => es.length
  | none, some xs => xs.length
  | none, none => 0

/-- The `for i, x in enumerate(xs): if i >= max_items: truncated; break;
    append` loop shared by the serializer branches: children capped at the
    budget, plus the truncated flag. -/
def capMap (f : α → β) : List α → Nat → List β × Bool
  | [], _ => ([], false)
  | _ :: _, 0 => ([], true)
  | x :: xs, k + 1 =>
    let p := capMap f xs k
    (f x :: p.1, p.2)

/-- `sorted(dir(obj))` restricted to the object's attribute table. -/
def sortedAttrs (attrs : List (String × Addr)) : List (String × Addr) :=
  attrs.mergeSort (fun x y => decide (x.1 ≤ y.1))

/-- `_get_public_attrs`: non-underscore, non-callable attributes in sorted
    order, with the append-then-break cap. -/
def pubAttrsGo (h : Heap) (maxI : Nat) : List (String × Addr) → Nat → List (String × Addr)
  | [], _ => []
  | (n, a) :: rest, cnt =>
    if n.startsWith "_" then pubAttrsGo h maxI rest cnt
    else
      match h.get? a with
      | some (.vfun _ _) => pubAttrsGo h maxI rest cnt
      | _ =>
        if cnt + 1 ≥ maxI then [(n, a)]
        else (n, a) :: pubAttrsGo h maxI rest (cnt + 1)

def pubAttrs (h : Heap) (attrs : List (String × Addr)) (maxI : Nat) : List (String × Addr) :=
  pubAttrsGo h maxI (sortedAttrs attrs) 0

/-- `_get_public_methods`: non-underscore callable names in sorted order. -/
def pubMethodsGo (h : Heap) (maxI : Nat) : List (String × Addr) → Nat → List String
  | [], _ => []
  | (n, a) :: rest, cnt =>
    if n.startsWith "_" then pubMethodsGo h maxI rest cnt
    else
      match h.get? a with
      | some (.vfun _ _) =>
        if cnt + 1 ≥ maxI then [n]
        else n :: pubMethodsGo h maxI rest (cnt + 1)
      | _ => pubMethodsGo h maxI rest cnt

def pubMethods (h : Heap) (attrs : List (String × Addr)) (maxI : Nat) : List String :=
  pubMethodsGo h maxI (sortedAttrs attrs) 0

/-- `[n for n in dir(obj) if not n.startswith('_')]`. -/
def publicNames (attrs : List (String × Addr)) : List String :=
  (attrs.map Prod.fst).filter (fun n => !n.startsWith "_")

/-- `_serialize_obj`.  `gas` is the remaining depth budget
    (`max_depth - _depth`); the mutable `_seen` set — added on entry and
    discarded on every exit path — always equals the set of ids on the
    active recursion path, so it is passed as the path list `seen`, each
    child receiving `addr :: seen`. -/
def serObj (h : Heap) (maxI maxR : Nat) (gas : Nat) (addr : Addr) (seen : List Addr) : Node :=
  let tname := cellType h addr
  if seen.contains addr then
    .mk tname "<circular ref>" none none none none none
  else
    let rstr := safeRepr h addr maxR
    let len? := lenOf h addr
    match gas with
    | 0 => .mk tname rstr len? none none none none
    | g + 1 =>
      match h.get? addr with
      | some (.vdict es) =>
        let p := capMap
          (fun kv => (safeRepr h kv.1 maxR, serObj h maxI maxR g kv.2 (addr :: seen)))
          es maxI
        .mk tname rstr len?
          (if p.1.isEmpty then none else some p.1) none none
          (if p.2 then some true else none)
      | some (.vlist xs) =>
        let p := capMap (fun x => serObj h maxI maxR g x (addr :: seen)) xs maxI
        .mk tname rstr len? none
          (if p.1.isEmpty then none else some p.1) none
          (if p.2 then some true else none)
      | some (.vset xs) =>
        let p := capMap (fun x => serObj h maxI maxR g x (addr :: seen)) xs maxI
        .mk tname rstr len? none
          (if p.1.isEmpty then none else some p.1) none
          (if p.2 then some true else none)
      | some (.vobj _ oattrs) =>
        let al := pubAttrs h oattrs maxI
        if al.isEmpty then .mk tname rstr len? none none none none
        else
          .mk tname rstr len? none none
            (some (al.map fun na => SAttr.mk na.1 (cellType h na.2) (safeRepr h na.2 maxR)))
            (if (publicNames oattrs).length > maxI then some true else none)
      | _ => .mk tname rstr len? none none none none
termination_by gas

/-- `serialize(value, max_depth, max_items, max_repr_len)` at the top of the
    recursion (`_depth = 0`, empty `_seen`). -/
def serializeTop (h : Heap) (addr : Addr) (maxD maxI maxR : Nat) : Node :=
  serObj h maxI maxR maxD addr []

/-! ### Resolve-level operations (`_resolve.py` public resolvers) -/

/-- Python whitespace characters (as in `str.strip` / `bytes.strip`). -/
def isPyWs (c : Char) : Bool :=
  c == ' ' || c == '\t' || c == '\n' || c == '\r' || c == '\x0b' || c == '\x0c'

def pyStripL (cs : List Char) : List Char :=
  ((cs.dropWhile isPyWs).reverse.dropWhile isPyWs).reverse

def pyStrip (s : String) : String := ⟨pyStripL s.data⟩

/-- `namespaces[name] = val`: replace an existing key's value, else append
    (Python dict insertion-order semantics). -/
def nsSet (ns : NS) (name : String) (val : Addr) : NS :=
  match ns with
  | [] => [(name, val)]
  | (k, v) :: rest =>
    if k == name then (k, val) :: rest else (k, v) :: nsSet rest name val

/-- `setattr(parent, attr, val)`: only `vobj` cells have a writable
    `__dict__`; builtin containers and scalars raise `AttributeError`. -/
def setattrE (h : Heap) (a : Addr) (f : String) (v : Addr) : Except PyErr Heap :=
  match h.get? a with
  | some (.vobj cls attrs) =>
    let rec go : List (String × Addr) → List (String × Addr)
      | [] => [(f, v)]
      | (n, w) :: rest => if n == f then (n, v) :: rest else (n, w) :: go rest
    .ok (h.set a (.vobj cls (go attrs)))
  | _ => .error (.attrErr f)

/-- `parent[key] = val` for dicts and lists.  A matching dict key keeps its
    original key object, as CPython does. -/
def setItemE (h : Heap) (a k v : Addr) : Except PyErr Heap :=
  match h.get? a with
  | some (.vdict es) =>
    let rec go : List (Addr × Addr) → List (Addr × Addr)
      | [] => [(k, v)]
      | (ka, va) :: rest =>
        if pyKeyEq h ka k then (ka, v) :: rest else (ka, va) :: go rest
    .ok (h.set a (.vdict (go es)))
  | some (.vlist xs) =>
    match h.get? k with
    | some (.vint n) =>
      let idx : Int := if n < 0 then n + xs.length else n
      if 0 ≤ idx ∧ idx.toNat < xs.length then
        .ok (h.set a (.vlist (xs.set idx.toNat v)))
      else .error .idxErr
    | _ => .error (.typeErr "list indices must be integers")
  | _ => .error (.typeErr "object does not support item assignment")

/-- The `_BRACKET_TAIL_RE = r'^(.+)\[(.+)\]$'` match: with both groups
    greedy and the final `\]` anchored, the split lands on the last `[`
    that leaves both groups non-empty. -/
def bracketTail (s : String) : Option (String × String) :=
  let cs := s.data
  let n := cs.length
  if cs.getLast? == some ']' then
    match ((List.range (n - 2)).filter
        (fun p => decide (1 ≤ p) && cs.getD p ' ' == '[')).getLast? with
    | some p => some (⟨cs.take p⟩, ⟨(cs.drop (p + 1)).take (n - 2 - p)⟩)
    | none => none
  else none

/-- `path.rfind('.')`. -/
def rfindDot (s : String) : Option Nat :=
  ((List.range s.data.length).filter (fun i => s.data.getD i ' ' == '.')).getLast?

def strTake (s : String) (k : Nat) : String := ⟨s.data.take k⟩
def strDropN (s : String) (k : Nat) : String := ⟨s.data.drop k⟩

/-- Result dict of `set_value`. -/
structure SetRes where
  path : String
  ok : Bool
  newValueRepr : Option String
  error : Option String
  errorType : Option String
deriving DecidableEq, Repr

def setOkRes (path r : String) : SetRes := ⟨path, true, some r, none, none⟩
def setErrRes (path : String) (e : PyErr) : SetRes :=
  ⟨path, false, none, some (errMsg e), some (errType e)⟩

/-- The `try`-block of `set_value`, after `value_expr` has been evaluated to
    `val` with heap `h`: every failure is converted to an `ok:false` dict,
    carrying the state reached at the point of failure. -/
def setValueBody (path : String) (ns : NS) (h : Heap) (val : Addr) : SetRes × NS × Heap :=
  match bracketTail path with
  | some (pp, ke) =>
    match pyEval pp ns h with
    | .error e => (setErrRes path e, ns, h)
    | .ok (pa, h2) =>
      match pyEval ke ns h2 with
      | .error e => (setErrRes path e, ns, h2)
      | .ok (ka, h3) =>
        match setItemE h3 pa ka val with
        | .error e => (setErrRes path e, ns, h3)
        | .ok h4 => (setOkRes path (safeRepr h4 val 200), ns, h4)
  | none =>
    match rfindDot path with
    | none =>
      (setOkRes path (safeRepr h val 200), nsSet ns path val, h)
    | some d =>
      let pp := strTake path d
      let attrName := strDropN path (d + 1)
      match pyEval pp ns h with
      | .error e => (setErrRes path e, ns, h)
      | .ok (pa, h2) =>
        match setattrE h2 pa attrName val with
        | .error e => (setErrRes path e, ns, h2)
        | .ok h3 => (setOkRes path (safeRepr h3 val 200), ns, h3)

/-- `set_value(path, namespaces, value_expr)`.  Note that the evaluation of
    `value_expr` happens before the `try`, so its failure propagates to the
    caller (`.error`); everything after is caught into the result dict. -/
def setValue (path : String) (ns : NS) (h : Heap) (valueExpr : String) :
    Except PyErr (SetRes × NS × Heap) :=
  match pyEval valueExpr ns h with
  | .error e => .error e
  | .ok (val, h1) => .ok (setValueBody path ns h1 val)

/-- Result dict of `call_path`. -/
structure CallRes where
  path : String
  resultType : Option String
  resultRepr : Option String
  ok : Bool
  error : Option String
  errorType : Option String
deriving DecidableEq, Repr

/-- Behaviour of the live callables reachable from the namespace: given the
    function id, positional/keyword argument addresses and the heap, either
    a result address with the new heap, or a raised exception. -/
def FunTable := String → List Addr → List (String × Addr) → Heap → Except PyErr (Addr × Heap)

/-- `fn(*a, **kw)`: only `vfun` cells are callable. -/
def applyFn (ft : FunTable) (h : Heap) (fa : Addr) (args : List Addr)
    (kwargs : List (String × Addr)) : Except PyErr (Addr × Heap) :=
  match h.get? fa with
  | some (.vfun fid _) => ft fid args kwargs h
  | _ => .error (.typeErr "object is not callable")

/-- The body of `call_path`'s `try` block: resolve the callable and invoke
    it. -/
def callInner (ft : FunTable) (path : String) (ns : NS) (h : Heap)
    (a : List Addr) (kw : List (String × Addr)) : Except PyErr (Addr × Heap) := do
  let (fa, h1) ← pyEval path ns h
  applyFn ft h1 fa a kw

/-- `call_path(path, namespaces, args, kwargs)`: resolve and invoke inside a
    `try` that converts every exception into an `ok:false` dict. -/
def callPath (ft : FunTable) (path : String) (ns : NS) (h : Heap)
    (args : Option (List Addr)) (kwargs : Option (List (String × Addr))) :
    Except PyErr (CallRes × Heap) :=
  match callInner ft path ns h (args.getD []) (kwargs.getD []) with
  | .ok (ra, h2) =>
    .ok (⟨path, some (cellType h2 ra), some (safeRepr h2 ra 200), true, none, none⟩, h2)
  | .error e =>
    .ok (⟨path, none, none, false, some (errMsg e), some (errType e)⟩, h)

/-- Result dict of `repr_path`. -/
structure ReprRes where
  path : String
  type : String
  repr : String
deriving DecidableEq, Repr

/-- `repr_path(path, namespaces, max_repr_len)`: no exception handling —
    a resolution failure propagates. -/
def reprPath (path : String) (ns : NS) (h : Heap) (maxR : Nat := 200) :
    Except PyErr ReprRes :=
  match pyEval path ns h with
  | .error e => .error e
  | .ok (a, h1) => .ok ⟨path, cellType h1 a, safeRepr h1 a maxR⟩

/-- One row of `list_state`. -/
structure StateRow where
  name : String
  type : String
  repr : String
deriving DecidableEq, Repr

/-- `list_state(namespaces)`: one row per registered root, repr capped at 60. -/
def listState (ns : NS) (h : Heap) : List StateRow :=
  ns.map fun kv => ⟨kv.1, cellType h kv.2, safeRepr h kv.2 60⟩

/-- Result of `list_path` — shallow single-level listing. -/
structure LNode where
  path : String
  type : String
  kind : String
  length : Option Nat
  keys : Option (List String)
  items : Option (List (String × String))
  attrs : Option (List SAttr)
  methods : Option (List String)
  truncated : Option Bool
deriving DecidableEq, Repr

/-- `list_path(path, namespaces, max_items, max_repr_len)`. -/
def listPath (path : String) (ns : NS) (h : Heap) (maxI maxR : Nat) :
    Except PyErr LNode :=
  match pyEval path ns h with
  | .error e => .error e
  | .ok (a, h1) =>
    let tname := cellType h1 a
    match h1.get? a with
    | some (.vdict es) =>
      let p := capMap (fun kv => pyRepr h1 kv.1) es maxI
      .ok ⟨path, tname, "mapping", some es.length, some p.1, none, none, none,
           if p.2 then some true else none⟩
    | some (.vlist xs) =>
      let p := capMap (fun x => (cellType h1 x, safeRepr h1 x maxR)) xs maxI
      .ok ⟨path, tname, "sequence", some xs.length, none, some p.1, none, none,
           if p.2 then some true else none⟩
    | some (.vset xs) =>
      let p := capMap (fun x => (cellType h1 x, safeRepr h1 x maxR)) xs maxI
      .ok ⟨path, tname, "sequence", some xs.length, none, some p.1, none, none,
           if p.2 then some true else none⟩
    | some (.vobj _ oattrs) =>
      let al := pubAttrs h1 oattrs maxI
      .ok ⟨path, tname, "object", none, none, none,
           some (al.map fun na => SAttr.mk na.1 (cellType h1 na.2) (safeRepr h1 na.2 maxR)),
           some (pubMethods h1 oattrs maxI),
           if (publicNames oattrs).length > maxI then some true else none⟩
    | _ =>
      .ok ⟨path, tname, "object", none, none, none, some [], some [],
           none⟩

/-- Result of `get_source`: either a located source dict or an error dict. -/
inductive SrcRes where
  | found (path file : String) (line : Nat) (source : String)
  | failed (path msg : String)
deriving DecidableEq, Repr

/-- `get_source(path, namespaces)`: `inspect.getsource` is modelled by the
    optional source metadata carried on `vfun` cells; everything else raises
    `TypeError`, which is caught into the error dict. -/
def getSource (path : String) (ns : NS) (h : Heap) : Except PyErr SrcRes :=
  match pyEval path ns h with
  | .error e => .error e
  | .ok (a, h1) =>
    match h1.get? a with
    | some (.vfun _ (some meta)) => .ok (.found path meta.1 meta.2.1 meta.2.2)
    | _ => .ok (.failed path "source not available")

/-- Result dict of `run_code`. -/
structure RunRes where
  result : String
  type : String
  mode : String
deriving DecidableEq, Repr

/-- Exec of a statement, modelled for the fragment `name = expr`; anything
    else re-raises `SyntaxError` as CPython `exec` would for non-statements.
    (Claims never depend on exec's internals: it is reachable only through
    the `eval` method, which the claims exercise solely through the
    read-only guard.) -/
def pyExecStmt (code : String) (ns : NS) (h : Heap) : Except PyErr (NS × Heap) :=
  match code.data.findIdx? (· == '=') with
  | none => .error .synErr
  | some i =>
    let lhs := pyStripL (code.data.take i)
    let rhs : String := ⟨pyStripL (code.data.drop (i + 1))⟩
    match takeIdent lhs with
    | some (nm, []) =>
      match pyEval rhs ns h with
      | .error e => .error e
      | .ok (v, h1) => .ok (nsSet ns nm v, h1)
    | _ => .error .synErr

/-- `run_code(code, namespaces)`: try `eval`; on `SyntaxError` fall back to
    `exec`.  Any other evaluation failure propagates uncaught. -/
def runCode (code : String) (ns : NS) (h : Heap) : Except PyErr (RunRes × NS × Heap) :=
  match pyEval code ns h with
  | .ok (a, h1) => .ok (⟨pyRepr h1 a, cellType h1 a, "eval"⟩, ns, h1)
  | .error .synErr =>
    match pyExecStmt code ns h with
    | .ok (ns1, h1) => .ok (⟨"OK", "NoneType", "exec"⟩, ns1, h1)
    | .error e => .error e
  | .error e => .error e

/-- Result of `inspect_object`: the serialized tree plus the echoed path. -/
structure InspRes where
  path : String
  tree : Node
deriving Repr

/-- `inspect_object(path, namespaces, ...)`.  Transient literal allocations
    made while resolving the path are garbage (unreachable from the
    namespaces), so the read-only operations return no heap. -/
def inspectObject (path : String) (ns : NS) (h : Heap) (maxD maxI maxR : Nat) :
    Except PyErr InspRes :=
  match pyEval path ns h with
  | .error e => .error e
  | .ok (a, h1) => .ok ⟨path, serializeTop h1 a maxD maxI maxR⟩

/-! ### Inspection server (`_server.py`) -/

/-- JSON values, the result of a successful `json.loads` (an external
    collaborator; raw-byte parsing is not re-modelled). -/
inductive Json where
  | null
  | bool (b : Bool)
  | num (n : Int)
  | str (s : String)
  | arr (elems : List Json)
  | obj (fields : List (String × Json))

mutual

/-- Allocate the Python object a decoded JSON value denotes (what
    `json.loads` hands to the handlers). -/
def jsonToHeap : Json → Heap → Addr × Heap
  | .null, h => (h.length, h ++ [.vnone])
  | .bool b, h => (h.length, h ++ [.vbool b])
  | .num n, h => (h.length, h ++ [.vint n])
  | .str s, h => (h.length, h ++ [.vstr s])
  | .arr xs, h =>
    let p := jsonListToHeap xs h
    (p.2.length, p.2 ++ [.vlist p.1])
  | .obj kvs, h =>
    let p := jsonFieldsToHeap kvs h
    (p.2.length, p.2 ++ [.vdict p.1])

def jsonListToHeap : List Json → Heap → List Addr × Heap
  | [], h => ([], h)
  | x :: xs, h =>
    let p := jsonToHeap x h
    let q := jsonListToHeap xs p.2
    (p.1 :: q.1, q.2)

def jsonFieldsToHeap : List (String × Json) → Heap → List (Addr × Addr) × Heap
  | [], h => ([], h)
  | (k, x) :: xs, h =>
    let ka := h.length
    let h1 := h ++ [Cell.vstr k]
    let p := jsonToHeap x h1
    let q := jsonFieldsToHeap xs p.2
    ((ka, p.1) :: q.1, q.2)

end

def VERSION : String := "python-devtools 0.2.0"

/-- `_MUTATION_METHODS` — blocked in readonly mode. -/
def mutationMethods : List String := ["eval", "call", "set"]

/-- The heterogeneous results the methods return. -/
inductive RpcResult where
  | str (s : String)
  | insp (r : InspRes)
  | lst (l : LNode)
  | rep (r : ReprRes)
  | run (r : RunRes)
  | call (c : CallRes)
  | assign (s : SetRes)
  | state (rows : List StateRow)
  | src (s : SrcRes)

/-- `params['key']`: `KeyError` when absent, and an attribute failure when
    `params` decoded to a non-mapping. -/
def paramGet (p : Json) (k : String) : Except PyErr Json :=
  match p with
  | .obj kvs =>
    match kvs.lookup k with
    | some v => .ok v
    | none => .error (.keyErr k)
  | _ => .error (.typeErr "params is not a mapping")

/-- `params.get('key', default)`. -/
def paramGetD (p : Json) (k : String) (d : Json) : Except PyErr Json :=
  match p with
  | .obj kvs => .ok ((kvs.lookup k).getD d)
  | _ => .error (.attrErr "get")

def asStr : Json → Except PyErr String
  | .str s => .ok s
  | _ => .error (.typeErr "expected a string")

def asInt : Json → Except PyErr Int
  | .num n => .ok n
  | _ => .error (.typeErr "expected an integer")

/-- `_Server._call(method, params)`: the readonly guard runs first; `ping`
    and `version` never touch the namespace; the rest dispatch to the
    resolvers (`invoke_fn` absent, so units of work run inline; the
    one-time warning is a logging side effect with no modelled state).
    The returned namespace/heap are the observable post-state; operations
    whose allocations are unreachable return the state unchanged. -/
def serverCall (readonly : Bool) (ft : FunTable) (method : String) (params : Json)
    (ns : NS) (h : Heap) : Except PyErr RpcResult × NS × Heap :=
  if readonly && mutationMethods.contains method then
    (.error (.permErr "readonly mode — mutation disabled"), ns, h)
  else
    match method with
    | "ping" => (.ok (.str "pong"), ns, h)
    | "version" => (.ok (.str VERSION), ns, h)
    | "screenshot" =>
      (.error (.rtErr "Screenshot not available — app has not registered a screenshot callback."), ns, h)
    | "eval" =>
      match paramGet params "code" with
      | .error e => (.error e, ns, h)
      | .ok cj =>
        match asStr cj with
        | .error e => (.error e, ns, h)
        | .ok code =>
          match runCode code ns h with
          | .error e => (.error e, ns, h)
          | .ok (r, ns1, h1) => (.ok (.run r), ns1, h1)
    | "inspect" =>
      match paramGet params "path" with
      | .error e => (.error e, ns, h)
      | .ok pj =>
        match asStr pj with
        | .error e => (.error e, ns, h)
        | .ok path =>
          match paramGetD params "max_depth" (.num 2),
                paramGetD params "max_items" (.num 50),
                paramGetD params "max_repr_len" (.num 200) with
          | .ok mdj, .ok mij, .ok mrj =>
            match asInt mdj, asInt mij, asInt mrj with
            | .ok md, .ok mi, .ok mr =>
              match inspectObject path ns h md.toNat mi.toNat mr.toNat with
              | .error e => (.error e, ns, h)
              | .ok r => (.ok (.insp r), ns, h)
            | .error e, _, _ => (.error e, ns, h)
            | _, .error e, _ => (.error e, ns, h)
            | _, _, .error e => (.error e, ns, h)
          | .error e, _, _ => (.error e, ns, h)
          | _, .error e, _ => (.error e, ns, h)
          | _, _, .error e => (.error e, ns, h)
    | "source" =>
      match paramGet params "path" with
      | .error e => (.error e, ns, h)
      | .ok pj =>
        match asStr pj with
        | .error e => (.error e, ns, h)
        | .ok path =>
          match getSource path ns h with
          | .error e => (.error e, ns, h)
          | .ok r => (.ok (.src r), ns, h)
    | "state" => (.ok (.state (listState ns h)), ns, h)
    | "list" =>
      match paramGet params "path" with
      | .error e => (.error e, ns, h)
      | .ok pj =>
        match asStr pj with
        | .error e => (.error e, ns, h)
        | .ok path =>
          match paramGetD params "max_items" (.num 50),
                paramGetD params "max_repr_len" (.num 200) with
          | .ok mij, .ok mrj =>
            match asInt mij, asInt mrj with
            | .ok mi, .ok mr =>
              match listPath path ns h mi.toNat mr.toNat with
              | .error e => (.error e, ns, h)
              | .ok r => (.ok (.lst r), ns, h)
            | .error e, _ => (.error e, ns, h)
            | _, .error e => (.error e, ns, h)
          | .error e, _ => (.error e, ns, h)
          | _, .error e => (.error e, ns, h)
    | "repr" =>
      match paramGet params "path" with
      | .error e => (.error e, ns, h)
      | .ok pj =>
        match asStr pj with
        | .error e => (.error e, ns, h)
        | .ok path =>
          match reprPath path ns h with
          | .error e => (.error e, ns, h)
          | .ok r => (.ok (.rep r), ns, h)
    | "call" =>
      match paramGet params "path" with
      | .error e => (.error e, ns, h)
      | .ok pj =>
        match asStr pj with
        | .error e => (.error e, ns, h)
        | .ok path =>
          match paramGetD params "args" .null, paramGetD params "kwargs" .null with
          | .ok aj, .ok kj =>
            let ap : Option (List Addr) × Heap :=
              match aj with
              | .arr xs => let p := jsonListToHeap xs h; (some p.1, p.2)
              | _ => (none, h)
            let kp : Option (List (String × Addr)) × Heap :=
              match kj with
              | .obj kvs =>
                let p := jsonFieldsToHeap kvs ap.2
                (some (kvs.zipWith (fun kv pa => (kv.1, pa.2)) p.1), p.2)
              | _ => (none, ap.2)
            match callPath ft path ns kp.2 ap.1 kp.1 with
            | .error e => (.error e, ns, h)
            | .ok (r, h2) => (.ok (.call r), ns, h2)
          | .error e, _ => (.error e, ns, h)
          | _, .error e => (.error e, ns, h)
    | "set" =>
      match paramGet params "path", paramGet params "value_expr" with
      | .error e, _ => (.error e, ns, h)
      | _, .error e => (.error e, ns, h)
      | .ok pj, .ok vj =>
        match asStr pj, asStr vj with
        | .error e, _ => (.error e, ns, h)
        | _, .error e => (.error e, ns, h)
        | .ok path, .ok ve =>
          match setValue path ns h ve with
          | .error e => (.error e, ns, h)
          | .ok (r, ns1, h1) => (.ok (.assign r), ns1, h1)
    | _ => (.error (.valErr ("Unknown method: '" ++ method ++ "'")), ns, h)

/-- One complete line received by the server: its raw text together with
    the outcome of `json.loads` on it (json decoding is external). -/
structure RawLine where
  text : String
  parsed : Option Json

/-- A response object: `id` plus exactly one of `result`/`error`. -/
structure PResp where
  id : Json
  result : Option RpcResult
  error : Option String

/-- `_Server._dispatch(raw)`: decode failure answers `id: null`; a decoded
    non-mapping request makes `req.get` raise `AttributeError` past
    `_dispatch` (killing the connection thread); otherwise `_call`'s
    outcome becomes `result` or `error` under the echoed `req.get('id')`. -/
def dispatch (readonly : Bool) (ft : FunTable) (r : RawLine) (ns : NS) (h : Heap) :
    Except PyErr PResp × NS × Heap :=
  match r.parsed with
  | none => (.ok ⟨.null, none, some "Invalid JSON"⟩, ns, h)
  | some (.obj kvs) =>
    let reqId := (kvs.lookup "id").getD .null
    let method := match kvs.lookup "method" with | some (.str s) => s | _ => ""
    let params := (kvs.lookup "params").getD (.obj [])
    match serverCall readonly ft method params ns h with
    | (.ok res, ns1, h1) => (.ok ⟨reqId, some res, none⟩, ns1, h1)
    | (.error e, ns1, h1) =>
      (.ok ⟨reqId, none, some (errType e ++ ": " ++ errMsg e)⟩, ns1, h1)
  | some _ => (.error (.attrErr "get"), ns, h)

/-- The server-side observable state a connection handler touches. -/
structure SrvW where
  ns : NS
  heap : Heap
  nCommands : Nat
  lastCommandTime : Nat

/-- The per-connection line loop of `_handle_client`, over the already
    line-split input (socket framing is external): blank lines are skipped
    before the counters are touched; each real line bumps the counters,
    is dispatched, and its response sent; an exception escaping
    `_dispatch` ends the connection with no further responses. -/
def handleLines (readonly : Bool) (ft : FunTable) :
    List RawLine → List Nat → SrvW → List PResp × SrvW
  | [], _, w => ([], w)
  | l :: rest, clock, w =>
    if (pyStripL l.text.data).isEmpty then handleLines readonly ft rest clock w
    else
      let w1 : SrvW := { w with nCommands := w.nCommands + 1,
                                lastCommandTime := clock.headD 0 }
      match dispatch readonly ft l w1.ns w1.heap with
      | (.ok resp, ns1, h1) =>
        let p := handleLines readonly ft rest clock.tail { w1 with ns := ns1, heap := h1 }
        (resp :: p.1, p.2)
      | (.error _, _, _) => ([], w1)

/-! ### Bridge client (`_cli.py`, `_DevToolsClient`) -/

/-- Outcome of one `_send_and_recv` round-trip: a decoded response line, a
    connection-class failure (`_CONN_ERRORS`), or an exception outside that
    class (oversize response, undecodable response line) which the retry
    logic does not catch. -/
inductive IOOut where
  | ok (resp : Json)
  | ioErr
  | fatal (e : PyErr)

/-- The network as the client observes it: scripted outcomes for successive
    connection attempts and round-trips.  An exhausted script behaves as a
    failure. -/
structure Net where
  conns : List Bool
  ios : List IOOut

/-- `_COOLDOWN` (seconds; time is modelled as an abstract integer clock). -/
def COOLDOWN : Nat := 3

/-- Client state: socket presence, the request-id counter, and
    `_last_fail` (0 meaning cleared, matching the falsy `0.0`). -/
structure ClientSt where
  connected : Bool
  rid : Nat
  lastFail : Nat

/-- Errors `request` can surface to its caller. -/
inductive CErr where
  | notReachable
  | refused
  | connFailed
  | rpcErr (s : String)
  | raised (e : PyErr)
  | keyErr
deriving DecidableEq

/-- A framed request line (id, method, params). -/
abbrev Msg := Nat × String × List (String × Json)

/-- Everything one `request` call produced: the caller-visible outcome, the
    final client state, the unconsumed network script, the transmissions
    performed (in order) and the number of connection attempts made. -/
structure ReqOut where
  res : Except CErr Json
  st : ClientSt
  net : Net
  sends : List Msg
  connAtt : Nat

def connectOnceM (net : Net) : Bool × Net :=
  (net.conns.headD false, { net with conns := net.conns.tail })

def sendRecvM (net : Net) : IOOut × Net :=
  (net.ios.headD .ioErr, { net with ios := net.ios.tail })

/-- Decode the response: a present `error` key raises; otherwise
    `resp['result']` is returned (`KeyError` when absent or the response
    is not a mapping). -/
def reqFinishRes (j : Json) : Except CErr Json :=
  match j with
  | .obj kvs =>
    match kvs.lookup "error" with
    | some (.str s) => .error (.rpcErr s)
    | some _ => .error (.rpcErr "")
    | none =>
      match kvs.lookup "result" with
      | some r => .ok r
      | none => .error .keyErr
  | _ => .error .keyErr

def reqFinish (j : Json) (st : ClientSt) (net : Net) (sends : List Msg)
    (catt : Nat) : ReqOut :=
  ⟨reqFinishRes j, st, net, sends, catt⟩

/-- The body of `request` after `_connect` has succeeded: assign the id,
    frame the message once, send; on a `_CONN_ERRORS` failure tear down,
    reconnect once and resend the identical message; a second
    connection-class failure records the cooldown and surfaces a
    connection error. -/
def reqProceed (now : Nat) (method : String) (params : List (String × Json))
    (st : ClientSt) (net : Net) (catt : Nat) : ReqOut :=
  let rid := st.rid + 1
  let st1 : ClientSt := { st with rid := rid }
  let msg : Msg := (rid, method, params)
  let p1 := sendRecvM net
  match p1.1 with
  | .ok j => reqFinish j st1 p1.2 [msg] catt
  | .fatal e => ⟨.error (.raised e), st1, p1.2, [msg], catt⟩
  | .ioErr =>
    let st2 : ClientSt := { st1 with connected := false }
    let p2 := connectOnceM p1.2
    if p2.1 then
      let st3 : ClientSt := { st2 with connected := true, lastFail := 0 }
      let p3 := sendRecvM p2.2
      match p3.1 with
      | .ok j => reqFinish j st3 p3.2 [msg, msg] (catt + 1)
      | .ioErr =>
        ⟨.error .connFailed, { st3 with connected := false, lastFail := now },
         p3.2, [msg, msg], catt + 1⟩
      | .fatal e => ⟨.error (.raised e), st3, p3.2, [msg, msg], catt + 1⟩
    else
      ⟨.error .connFailed, { st2 with connected := false, lastFail := now },
       p2.2, [msg], catt + 1⟩

/-- `_DevToolsClient.request(method, **params)` (the lock serializes
    callers, so one call is modelled in isolation): fail fast inside the
    cooldown window, connect if needed, then run the send/receive/retry
    body. -/
def requestM (now : Nat) (method : String) (params : List (String × Json))
    (st : ClientSt) (net : Net) : ReqOut :=
  if st.connected then reqProceed now method params st net 0
  else if st.lastFail ≠ 0 && now - st.lastFail < COOLDOWN then
    ⟨.error .notReachable, st, net, [], 0⟩
  else
    let p := connectOnceM net
    if p.1 then
      reqProceed now method params { st with connected := true, lastFail := 0 } p.2 1
    else
      ⟨.error .refused, { st with connected := false, lastFail := now }, p.2, [], 1⟩

/-! ### Lemmas and claim theorems -/

/-- Element count of a mapping/sequence/set cell (the shapes the
    serializer's container branches handle). -/
def containerLen? : Cell → Option Nat
  | .vdict es => some es.length
  | .vlist xs => some xs.length
  | .vset xs => some xs.length
  | _ => none

theorem capMap_of_lt {α β : Type} (f : α → β) (l : List α) (k : Nat)
    (h : k < l.length) : (capMap f l k).1.length = k ∧ (capMap f l k).2 = true := by
  induction l generalizing k with
  | nil => simp at h
  | cons x xs ih =>
    cases k with
    | zero => simp [capMap]
    | succ k =>
      have := ih k (by simpa using Nat.lt_of_succ_lt_succ h)
      simp [capMap, this.1, this.2]

theorem capMap_of_le {α β : Type} (f : α → β) (l : List α) (k : Nat)
    (h : l.length ≤ k) : capMap f l k = (l.map f, false) := by
  induction l generalizing k with
  | nil => cases k <;> simp [capMap]
  | cons x xs ih =>
    cases k with
    | zero => simp at h
    | succ k =>
      have := ih k (by simpa using Nat.le_of_succ_le_succ h)
      simp [capMap, this]

theorem Node.childCount_entries (t r : String) (l? : Option Nat) (cs : List (String × Node)) (tr : Option Bool) :
    (Node.mk t r l? (if cs.isEmpty then none else some cs) none none tr).childCount = cs.length := by
  cases cs <;> simp [Node.childCount, Node.entries, Node.items]

theorem Node.childCount_items (t r : String) (l? : Option Nat) (cs : List Node) (tr : Option Bool) :
    (Node.mk t r l? none (if cs.isEmpty then none else some cs) none tr).childCount = cs.length := by
  cases cs <;> simp [Node.childCount, Node.entries, Node.items]

theorem contains_nil_false (a : Addr) : (([] : List Addr).contains a) = false := rfl

theorem capMap_nil {α β : Type} (f : α → β) (k : Nat) : capMap f [] k = ([], false) := by
  cases k <;> rfl

theorem capMap_zero_cons {α β : Type} (f : α → β) (x : α) (xs : List α) :
    capMap f (x :: xs) 0 = ([], true) := rfl

/-- `_serialize_obj` with the object not on the active path: one unfolding
    step of the definition. -/
theorem serObj_not_seen (h : Heap) (maxI maxR gas : Nat) (addr : Addr) (seen : List Addr)
    (hs : seen.contains addr = false) :
    serObj h maxI maxR gas addr seen =
      match gas with
      | 0 => Node.mk (cellType h addr) (safeRepr h addr maxR) (lenOf h addr) none none none none
      | g + 1 =>
        match h.get? addr with
        | some (.vdict es) =>
          let p := capMap
            (fun kv => (safeRepr h kv.1 maxR, serObj h maxI maxR g kv.2 (addr :: seen)))
            es maxI
          Node.mk (cellType h addr) (safeRepr h addr maxR) (lenOf h addr)
            (if p.1.isEmpty then none else some p.1) none none
            (if p.2 then some true else none)
        | some (.vlist xs) =>
          let p := capMap (fun x => serObj h maxI maxR g x (addr :: seen)) xs maxI
          Node.mk (cellType h addr) (safeRepr h addr maxR) (lenOf h addr) none
            (if p.1.isEmpty then none else some p.1) none
            (if p.2 then some true else none)
        | some (.vset xs) =>
          let p := capMap (fun x => serObj h maxI maxR g x (addr :: seen)) xs maxI
          Node.mk (cellType h addr) (safeRepr h addr maxR) (lenOf h addr) none
            (if p.1.isEmpty then none else some p.1) none
            (if p.2 then some true else none)
        | some (.vobj _ oattrs) =>
          let al := pubAttrs h oattrs maxI
          if al.isEmpty then
            Node.mk (cellType h addr) (safeRepr h addr maxR) (lenOf h addr) none none none none
          else
            Node.mk (cellType h addr) (safeRepr h addr maxR) (lenOf h addr) none none
              (some (al.map fun na => SAttr.mk na.1 (cellType h na.2) (safeRepr h na.2 maxR)))
              (if (publicNames oattrs).length > maxI then some true else none)
        | _ => Node.mk (cellType h addr) (safeRepr h addr maxR) (lenOf h addr) none none none none := by
  rw [serObj]
  simp only [hs, Bool.false_eq_true, if_false]

/-- C5: for every `max_items = k` and every mapping/sequence/set value, a
    serialization of a top-level container with more than `k` elements has
    exactly `k` serialized children and `truncated = true`, and with at
    most `k` elements the `truncated` flag is absent and every element
    appears as a child (child count equals the element count); the depth
    budget must allow children at all (`max_depth ≥ 1`, the default is 2). -/
theorem serialize_max_items_cap (h : Heap) (addr : Addr) (cell : Cell)
    (n k maxD maxR : Nat)
    (hcell : h.get? addr = some cell) (hn : containerLen? cell = some n)
    (hd : 1 ≤ maxD) :
    (k < n → (serializeTop h addr maxD k maxR).childCount = k ∧
             (serializeTop h addr maxD k maxR).truncated = some true) ∧
    (n ≤ k → (serializeTop h addr maxD k maxR).truncated = none ∧
             (serializeTop h addr maxD k maxR).childCount = n) := by
  obtain ⟨g, rfl⟩ : ∃ g, maxD = g + 1 := ⟨maxD - 1, by omega⟩
  unfold serializeTop
  rw [serObj_not_seen h k maxR (g + 1) addr [] (contains_nil_false addr)]
  cases cell with
  | vdict es =>
    simp only [containerLen?, Option.some.injEq] at hn
    subst hn
    simp only [hcell]
    constructor
    · intro hk
      have e := capMap_of_lt (fun kv => (safeRepr h kv.1 maxR, serObj h k maxR g kv.2 (addr :: []))) es k hk
      rw [e.2]
      exact ⟨(Node.childCount_entries _ _ _ _ _).trans e.1, rfl⟩
    · intro hk
      rw [capMap_of_le (fun kv => (safeRepr h kv.1 maxR, serObj h k maxR g kv.2 (addr :: []))) es k hk]
      exact ⟨rfl, (Node.childCount_entries _ _ _ _ _).trans (List.length_map _ _)⟩
  | vlist xs =>
    simp only [containerLen?, Option.some.injEq] at hn
    subst hn
    simp only [hcell]
    constructor
    · intro hk
      have e := capMap_of_lt (fun x => serObj h k maxR g x (addr :: [])) xs k hk
      rw [e.2]
      exact ⟨(Node.childCount_items _ _ _ _ _).trans e.1, rfl⟩
    · intro hk
      rw [capMap_of_le (fun x => serObj h k maxR g x (addr :: [])) xs k hk]
      exact ⟨rfl, (Node.childCount_items _ _ _ _ _).trans (List.length_map _ _)⟩
  | vset xs =>
    simp only [containerLen?, Option.some.injEq] at hn
    subst hn
    simp only [hcell]
    constructor
    · intro hk
      have e := capMap_of_lt (fun x => serObj h k maxR g x (addr :: [])) xs k hk
      rw [e.2]
      exact ⟨(Node.childCount_items _ _ _ _ _).trans e.1, rfl⟩
    · intro hk
      rw [capMap_of_le (fun x => serObj h k maxR g x (addr :: [])) xs k hk]
      exact ⟨rfl, (Node.childCount_items _ _ _ _ _).trans (List.length_map _ _)⟩
  | vint m => simp [containerLen?] at hn
  | vstr s => simp [containerLen?] at hn
  | vbool b => simp [containerLen?] at hn
  | vnone => simp [containerLen?] at hn
  | vobj cls attrs => simp [containerLen?] at hn
  | vfun fid src => simp [containerLen?] at hn

/-- A two-entry dict `{'a': 1, 'b': 2}` rooted at address 0. -/
def heapTwoKeys : Heap :=
  [.vdict [(1, 2), (3, 4)], .vstr "a", .vint 1, .vstr "b", .vint 2]

/-- C5 witness: the two-entry mapping at `max_items = 1` keeps one child and
    is flagged truncated; at `max_items = 2` both children survive and the
    flag is absent. -/
theorem serialize_max_items_cap_witness :
    ((serializeTop heapTwoKeys 0 2 1 200).childCount = 1 ∧
     (serializeTop heapTwoKeys 0 2 1 200).truncated = some true) ∧
    ((serializeTop heapTwoKeys 0 2 2 200).truncated = none ∧
     (serializeTop heapTwoKeys 0 2 2 200).childCount = 2) :=
  ⟨(serialize_max_items_cap heapTwoKeys 0 (.vdict [(1, 2), (3, 4)]) 2 1 2 200
      rfl rfl (by decide)).1 (by decide),
   (serialize_max_items_cap heapTwoKeys 0 (.vdict [(1, 2), (3, 4)]) 2 2 2 200
      rfl rfl (by decide)).2 (by decide)⟩

/-- C9: when zero children are emitted for a container (the container is
    empty, or `max_items = 0`), the serialized node omits the
    `entries`/`items` key entirely rather than carrying an empty list; a
    non-empty container serialized with `max_items = 0` (and a depth budget
    allowing children) still carries `truncated = true` with no
    `entries`/`items` key. -/
theorem serialize_empty_children_omitted (h : Heap) (addr : Addr) (cell : Cell) (n k maxD maxR : Nat)
    (hcell : h.get? addr = some cell) (hn : containerLen? cell = some n) :
    ((n = 0 ∨ k = 0) → (serializeTop h addr maxD k maxR).entries = none ∧
                       (serializeTop h addr maxD k maxR).items = none) ∧
    (0 < n → k = 0 → 1 ≤ maxD → (serializeTop h addr maxD k maxR).truncated = some true) := by
  unfold serializeTop
  cases maxD with
  | zero =>
    rw [serObj_not_seen h k maxR 0 addr [] (contains_nil_false addr)]
    exact ⟨fun _ => ⟨rfl, rfl⟩, fun _ _ hd => by omega⟩
  | succ g =>
    rw [serObj_not_seen h k maxR (g + 1) addr [] (contains_nil_false addr)]
    cases cell with
    | vdict es =>
      simp only [containerLen?, Option.some.injEq] at hn
      subst hn
      simp only [hcell]
      constructor
      · rintro (hz | hz)
        · have : es = [] := List.length_eq_zero.mp hz
          subst this
          rw [capMap_nil]
          exact ⟨rfl, rfl⟩
        · subst hz
          cases es with
          | nil => rw [capMap_nil]; exact ⟨rfl, rfl⟩
          | cons x xs => rw [capMap_zero_cons]; exact ⟨rfl, rfl⟩
      · intro hpos hz _
        subst hz
        cases es with
        | nil => simp at hpos
        | cons x xs => rw [capMap_zero_cons]; rfl
    | vlist xs =>
      simp only [containerLen?, Option.some.injEq] at hn
      subst hn
      simp only [hcell]
      constructor
      · rintro (hz | hz)
        · have : xs = [] := List.length_eq_zero.mp hz
          subst this
          rw [capMap_nil]
          exact ⟨rfl, rfl⟩
        · subst hz
          cases xs with
          | nil => rw [capMap_nil]; exact ⟨rfl, rfl⟩
          | cons y ys => rw [capMap_zero_cons]; exact ⟨rfl, rfl⟩
      · intro hpos hz _
        subst hz
        cases xs with
        | nil => simp at hpos
        | cons y ys => rw [capMap_zero_cons]; rfl
    | vset xs =>
      simp only [containerLen?, Option.some.injEq] at hn
      subst hn
      simp only [hcell]
      constructor
      · rintro (hz | hz)
        · have : xs = [] := List.length_eq_zero.mp hz
          subst this
          rw [capMap_nil]
          exact ⟨rfl, rfl⟩
        · subst hz
          cases xs with
          | nil => rw [capMap_nil]; exact ⟨rfl, rfl⟩
          | cons y ys => rw [capMap_zero_cons]; exact ⟨rfl, rfl⟩
      · intro hpos hz _
        subst hz
        cases xs with
        | nil => simp at hpos
        | cons y ys => rw [capMap_zero_cons]; rfl
    | vint m => simp [containerLen?] at hn
    | vstr s => simp [containerLen?] at hn
    | vbool b => simp [containerLen?] at hn
    | vnone => simp [containerLen?] at hn
    | vobj cls attrs => simp [containerLen?] at hn
    | vfun fid src => simp [containerLen?] at hn

/-- C9 witness: the two-entry mapping serialized with `max_items = 0` has no
    `entries` and no `items` key, yet `truncated = true`. -/
theorem serialize_empty_children_omitted_witness :
    ((serializeTop heapTwoKeys 0 2 0 200).entries = none ∧
     (serializeTop heapTwoKeys 0 2 0 200).items = none) ∧
    (serializeTop heapTwoKeys 0 2 0 200).truncated = some true :=
  ⟨(serialize_empty_children_omitted heapTwoKeys 0 (.vdict [(1, 2), (3, 4)]) 2 0 2 200
      rfl rfl).1 (Or.inr rfl),
   (serialize_empty_children_omitted heapTwoKeys 0 (.vdict [(1, 2), (3, 4)]) 2 0 2 200
      rfl rfl).2 (by decide) rfl (by decide)⟩

/-- C6: serialization terminates on every value — in this embedding
    `serObj` is a total function whose recursion is bounded by the depth
    budget, mirroring the source where depth gating bounds the recursion —
    and: (1) an object whose identity is on the active recursion path
    yields a bare type-plus-repr node whose repr is the circular-reference
    marker, with no length and no children (no recursion into it);
    (2) an object not on the active path gets its normal repr, never the
    marker literal; (3) an object shared by two sibling positions (not on
    the active path) is serialized normally, and identically, in both
    places — only the parent chain is on the path, not previously finished
    siblings. -/
theorem serialize_cycle_safe :
    (∀ (h : Heap) (maxI maxR gas : Nat) (addr : Addr) (seen : List Addr),
       seen.contains addr = true →
       serObj h maxI maxR gas addr seen =
         Node.mk (cellType h addr) "<circular ref>" none none none none none) ∧
    (∀ (h : Heap) (maxI maxR gas : Nat) (addr : Addr) (seen : List Addr),
       seen.contains addr = false →
       (serObj h maxI maxR gas addr seen).repr = safeRepr h addr maxR) ∧
    (∀ (h : Heap) (maxI maxR g : Nat) (addr b : Addr),
       h.get? addr = some (.vlist [b, b]) → 2 ≤ maxI →
       (serializeTop h addr (g + 1) maxI maxR).items =
         some [serObj h maxI maxR g b [addr], serObj h maxI maxR g b [addr]]) := by
  refine ⟨?_, ?_, ?_⟩
  · intro h maxI maxR gas addr seen hs
    rw [serObj]
    simp only [hs, if_true]
  · intro h maxI maxR gas addr seen hs
    rw [serObj_not_seen h maxI maxR gas addr seen hs]
    cases gas with
    | zero => rfl
    | succ g =>
      rcases hq : h.get? addr with _ | c
      · simp only [hq]; rfl
      · cases c <;> simp only [hq] <;> first | rfl | (split <;> rfl)
  · intro h maxI maxR g addr b hcell hmi
    unfold serializeTop
    rw [serObj_not_seen h maxI maxR (g + 1) addr [] (contains_nil_false addr)]
    simp only [hcell]
    rw [capMap_of_le (fun x => serObj h maxI maxR g x (addr :: [])) [b, b] maxI (by simpa using hmi)]
    rfl

/-- A directly self-referential list `l = [l, 7, 7]` at address 0. -/
def heapCyc : Heap := [.vlist [0, 1, 1], .vint 7]

/-- A list `[x, x]` sharing one element between two sibling slots. -/
def heapSib : Heap := [.vlist [1, 1], .vint 7]

/-- C6 witness: the on-path occurrence collapses to the marker node, an
    off-path node keeps its real repr, and a shared sibling is serialized
    in full in both positions. -/
theorem serialize_cycle_safe_witness :
    serObj heapCyc 50 200 1 0 [0] =
      Node.mk "list" "<circular ref>" none none none none none ∧
    (serObj heapCyc 50 200 2 0 []).repr = safeRepr heapCyc 0 200 ∧
    (serializeTop heapSib 0 2 50 200).items =
      some [serObj heapSib 50 200 1 1 [0], serObj heapSib 50 200 1 1 [0]] :=
  ⟨serialize_cycle_safe.1 heapCyc 50 200 1 0 [0] rfl,
   serialize_cycle_safe.2.1 heapCyc 50 200 2 0 [] rfl,
   serialize_cycle_safe.2.2 heapSib 50 200 1 0 1 rfl (by decide)⟩

/-- Claim C1's scenario: the root `counter` bound to the mapping with the
    single entry `'n' ↦ 0`. -/
def heapCounter : Heap := [.vdict [(1, 2)], .vstr "n", .vint 0]
def nsCounter : NS := [("counter", 0)]

/-- C1 counterexample: with `counter = dict(n=0)`, the dotted path
    `counter.n` takes `set_value`'s attribute branch, and `setattr` on a
    dict raises `AttributeError` — caught into an `ok:false` result, not
    the claimed `{ok:true, new_value_repr:"5"}`; the subsequent
    `repr("counter.n")` does not return an int node either: it raises the
    same `AttributeError` past `repr_path`. -/
theorem set_dotted_mapping_counterexample :
    setValue "counter.n" nsCounter heapCounter "5" =
      .ok (⟨"counter.n", false, none, some "object has no attribute 'n'", some "AttributeError"⟩,
           nsCounter, heapCounter ++ [.vint 5]) ∧
    reprPath "counter.n" nsCounter heapCounter = .error (.attrErr "n") := ⟨rfl, rfl⟩

/-- C1 (amended): the scenario holds with the bracket form of the path —
    `set("counter['n']", "5")` returns `{ok:true, new_value_repr:"5"}` and
    the subsequent `repr("counter['n']")` on the updated state returns
    `{path:"counter['n']", type:"int", repr:"5"}`; the dotted form fails on
    a mapping because dotted tails assign attributes, not items. -/
theorem set_bracket_mapping_roundtrip :
    setValue "counter['n']" nsCounter heapCounter "5" =
      .ok (⟨"counter['n']", true, some "5", none, none⟩, nsCounter,
           [.vdict [(1, 3)], .vstr "n", .vint 0, .vint 5, .vstr "n"]) ∧
    reprPath "counter['n']" nsCounter [.vdict [(1, 3)], .vstr "n", .vint 0, .vint 5, .vstr "n"] =
      .ok ⟨"counter['n']", "int", "5"⟩ := ⟨rfl, rfl⟩

/-- C2 counterexample: `set_value` evaluates its value expression before
    entering the `try` block, so a failing value expression (here the
    undefined name `oops`) raises `NameError` past `set_value`'s boundary
    instead of producing a structured `ok:false` result. -/
theorem set_value_expr_raises_counterexample :
    setValue "x" [] [] "oops" = .error (.nameErr "oops") := rfl

theorem setValueBody_shape (path : String) (ns : NS) (h : Heap) (val : Addr) :
    ((setValueBody path ns h val).1.ok = true ∧
     (setValueBody path ns h val).1.error = none ∧
     (setValueBody path ns h val).1.errorType = none) ∨
    ((setValueBody path ns h val).1.ok = false ∧
     ((setValueBody path ns h val).1.error).isSome = true ∧
     ((setValueBody path ns h val).1.errorType).isSome = true) := by
  unfold setValueBody
  repeat' (split <;> try simp [setOkRes, setErrRes])

/-- C2 (amended): `call_path` is total — for every path, namespace, heap and
    arguments it returns a structured result, `ok:true` with no error
    fields or `ok:false` with `error` and `error_type` — and `set_value`
    is total once its value expression has evaluated; a failing value
    expression is the one uncontained failure (see the counterexample). -/
theorem set_call_error_containment (ft : FunTable) (path : String) (ns : NS) (h : Heap)
    (args : Option (List Addr)) (kwargs : Option (List (String × Addr))) :
    (∃ d h2, callPath ft path ns h args kwargs = .ok (d, h2) ∧
       ((d.ok = true ∧ d.error = none ∧ d.errorType = none) ∨
        (d.ok = false ∧ d.error.isSome = true ∧ d.errorType.isSome = true))) ∧
    (∀ ve val h1, pyEval ve ns h = .ok (val, h1) →
       ∃ r ns1 h2, setValue path ns h ve = .ok (r, ns1, h2) ∧
         ((r.ok = true ∧ r.error = none ∧ r.errorType = none) ∨
          (r.ok = false ∧ r.error.isSome = true ∧ r.errorType.isSome = true))) := by
  constructor
  · unfold callPath
    cases callInner ft path ns h (args.getD []) (kwargs.getD []) with
    | ok p => exact ⟨_, _, rfl, Or.inl ⟨rfl, rfl, rfl⟩⟩
    | error e => exact ⟨_, _, rfl, Or.inr ⟨rfl, rfl, rfl⟩⟩
  · intro ve val h1 hev
    unfold setValue
    rw [hev]
    exact ⟨_, _, _, rfl, setValueBody_shape path ns h1 val⟩

/-- No live callables registered: every invocation raises. -/
def ftNone : FunTable := fun _ _ _ _ => .error (.rtErr "no live callables")

/-- C2 witness: the containment theorem applied on the `counter` namespace,
    with the value expression `"5"` evaluating successfully. -/
theorem set_call_error_containment_witness :
    (∃ d h2, callPath ftNone "counter" nsCounter heapCounter none none = .ok (d, h2) ∧
       ((d.ok = true ∧ d.error = none ∧ d.errorType = none) ∨
        (d.ok = false ∧ d.error.isSome = true ∧ d.errorType.isSome = true))) ∧
    (∃ r ns1 h2, setValue "counter" nsCounter heapCounter "5" = .ok (r, ns1, h2) ∧
       ((r.ok = true ∧ r.error = none ∧ r.errorType = none) ∨
        (r.ok = false ∧ r.error.isSome = true ∧ r.errorType.isSome = true))) :=
  ⟨(set_call_error_containment ftNone "counter" nsCounter heapCounter none none).1,
   (set_call_error_containment ftNone "counter" nsCounter heapCounter none none).2
     "5" 3 (heapCounter ++ [Cell.vint 5]) (by rfl)⟩

/-- `req.get('id')`-style lookup on a decoded JSON value. -/
def jsonGet (j : Json) (k : String) : Option Json :=
  match j with
  | .obj kvs => kvs.lookup k
  | _ => none

/-- C3 counterexample: a request line that parses fine but carries no `id`
    key — `\x7b"method": "ping"\x7d` — is answered with `id: null`, so a
    null id does not imply a parse failure. -/
theorem response_id_null_counterexample :
    dispatch false ftNone
        ⟨"\x7b\"method\": \"ping\"\x7d", some (.obj [("method", Json.str "ping")])⟩ [] [] =
      (.ok ⟨Json.null, some (.str "pong"), none⟩, [], []) ∧
    some (Json.obj [("method", Json.str "ping")]) ≠ (none : Option Json) :=
  ⟨rfl, by simp⟩

/-- C3 (amended): every answered line carries
    `id = req.get('id') if parsed else null` — i.e. `id` is `null` exactly
    when the line failed to parse **or** the parsed request supplies no
    `id` (or a null one); when the caller assigned an id it is echoed
    verbatim. -/
theorem response_id_policy (ro : Bool) (ft : FunTable) (r : RawLine) (ns : NS) (h : Heap)
    (resp : PResp) (ns1 : NS) (h1 : Heap)
    (hd : dispatch ro ft r ns h = (.ok resp, ns1, h1)) :
    resp.id = ((r.parsed.bind (fun j => jsonGet j "id")).getD Json.null) := by
  rcases r with ⟨text, parsed⟩
  cases parsed with
  | none =>
    simp only [dispatch, Prod.mk.injEq, Except.ok.injEq] at hd
    rw [← hd.1]
    rfl
  | some j =>
    cases j with
    | obj kvs =>
      simp only [dispatch] at hd
      split at hd <;>
        (simp only [Prod.mk.injEq, Except.ok.injEq] at hd
         rw [← hd.1]
         simp [jsonGet])
    | null => simp [dispatch] at hd
    | bool b => simp [dispatch] at hd
    | num n => simp [dispatch] at hd
    | str s => simp [dispatch] at hd
    | arr xs => simp [dispatch] at hd

/-- C3 witness: a ping request with caller id `7` is answered under id `7`. -/
theorem response_id_policy_witness :
    (⟨Json.num 7, some (.str "pong"), none⟩ : PResp).id = Json.num 7 :=
  response_id_policy false ftNone
    ⟨"\x7b\"id\": 7, \"method\": \"ping\"\x7d",
     some (.obj [("id", Json.num 7), ("method", Json.str "ping")])⟩ [] []
    ⟨Json.num 7, some (.str "pong"), none⟩ [] [] rfl

/-- C4: in read-only mode, dispatching `eval`, `call` or `set` fails with a
    permission error before any resolution work, leaving the namespace
    mapping and the whole heap of objects it references untouched; the
    methods `inspect`, `list`, `repr`, `source`, `state`, `ping` and
    `version` produce exactly the same outcome (result and post-state) in
    read-only mode as in read-write mode. -/
theorem readonly_mode_guard (ft : FunTable) (params : Json) (ns : NS) (h : Heap) :
    (∀ m, m ∈ mutationMethods →
       serverCall true ft m params ns h =
         (.error (.permErr "readonly mode — mutation disabled"), ns, h)) ∧
    (∀ m, m ∈ (["inspect", "list", "repr", "source", "state", "ping", "version"] : List String) →
       serverCall true ft m params ns h = serverCall false ft m params ns h) := by
  constructor
  · intro m hm
    fin_cases hm <;> rfl
  · intro m hm
    fin_cases hm <;> rfl

/-- C4 witness: on the `counter` namespace, a read-only `set` is refused
    with the state unchanged, and `ping` answers identically in both
    modes. -/
theorem readonly_mode_guard_witness :
    serverCall true ftNone "set"
        (.obj [("path", .str "counter"), ("value_expr", .str "5")]) nsCounter heapCounter =
      (.error (.permErr "readonly mode — mutation disabled"), nsCounter, heapCounter) ∧
    serverCall true ftNone "ping" (.obj []) nsCounter heapCounter =
      serverCall false ftNone "ping" (.obj []) nsCounter heapCounter :=
  ⟨(readonly_mode_guard ftNone (.obj [("path", .str "counter"), ("value_expr", .str "5")])
      nsCounter heapCounter).1 "set" (by decide),
   (readonly_mode_guard ftNone (.obj []) nsCounter heapCounter).2 "ping" (by decide)⟩

/-- C10: a received line that is empty or whitespace-only is skipped before
    the command counter and last-command timestamp are touched: the
    connection loop produces no response for it, changes no server state,
    and proceeds to serve the remaining lines exactly as if the blank line
    had never arrived. -/
theorem blank_line_skipped (ro : Bool) (ft : FunTable) (l : RawLine)
    (rest : List RawLine) (clock : List Nat) (w : SrvW)
    (hws : (pyStripL l.text.data).isEmpty = true) :
    handleLines ro ft (l :: rest) clock w = handleLines ro ft rest clock w := by
  rw [handleLines, if_pos hws]

/-- C10 witness: a whitespace-only line ahead of a ping request leaves the
    loop's behaviour identical to the ping alone. -/
theorem blank_line_skipped_witness :
    handleLines false ftNone
        [⟨" \t ", none⟩, ⟨"\x7b\"id\": 1, \"method\": \"ping\"\x7d",
                          some (.obj [("id", Json.num 1), ("method", Json.str "ping")])⟩]
        [5] ⟨nsCounter, heapCounter, 0, 0⟩ =
      handleLines false ftNone
        [⟨"\x7b\"id\": 1, \"method\": \"ping\"\x7d",
          some (.obj [("id", Json.num 1), ("method", Json.str "ping")])⟩]
        [5] ⟨nsCounter, heapCounter, 0, 0⟩ :=
  blank_line_skipped false ftNone ⟨" \t ", none⟩
    [⟨"\x7b\"id\": 1, \"method\": \"ping\"\x7d",
      some (.obj [("id", Json.num 1), ("method", Json.str "ping")])⟩]
    [5] ⟨nsCounter, heapCounter, 0, 0⟩ (by decide)

/-- C7: when the send/receive of a connected request fails with a
    connection-class I/O error, the client tears the connection down and
    makes exactly one reconnection attempt; if that succeeds, the identical
    framed request (same id, method and params) is retransmitted exactly
    once — two transmissions in total, never more; if the reconnect or the
    retried round-trip fails again, the failure time is recorded for the
    cooldown and a connection error is surfaced to the caller. -/
theorem client_single_retry (now : Nat) (m : String) (p : List (String × Json))
    (st : ClientSt) (net : Net) (ios' : List IOOut) (cb : Bool) (cs' : List Bool)
    (hc : st.connected = true) (hio : net.ios = .ioErr :: ios')
    (hcn : net.conns = cb :: cs') :
    (requestM now m p st net).connAtt = 1 ∧
    (cb = true → (requestM now m p st net).sends = [(st.rid + 1, m, p), (st.rid + 1, m, p)]) ∧
    (cb = false → (requestM now m p st net).sends = [(st.rid + 1, m, p)] ∧
                  (requestM now m p st net).res = .error .connFailed ∧
                  (requestM now m p st net).st.lastFail = now ∧
                  (requestM now m p st net).st.connected = false) ∧
    (∀ ios2, cb = true → ios' = .ioErr :: ios2 →
       (requestM now m p st net).res = .error .connFailed ∧
       (requestM now m p st net).st.lastFail = now ∧
       (requestM now m p st net).st.connected = false) := by
  unfold requestM reqProceed
  rw [hc]
  simp only [if_true, sendRecvM, connectOnceM, hio, List.headD_cons, List.tail_cons, hcn]
  cases cb with
  | true =>
    simp only [if_true]
    refine ⟨?_, ?_, ?_, ?_⟩
    · cases hi2 : ios'.headD .ioErr <;> rfl
    · intro _
      cases hi2 : ios'.headD .ioErr <;> rfl
    · intro hfalse; exact absurd hfalse (by simp)
    · intro ios2 _ hios2
      subst hios2
      simp
  | false =>
    simp only [Bool.false_eq_true, if_false]
    exact ⟨trivial, fun hx => hx.elim, fun _ => ⟨trivial, trivial, trivial, trivial⟩,
           fun _ hx => hx.elim⟩

/-- C7 witness: a failed round-trip followed by a successful reconnect
    retransmits the same framed request once; a failed reconnect, or a
    second I/O failure, surfaces a connection error with the cooldown
    recorded. -/
theorem client_single_retry_witness :
    (requestM 5 "ping" [] ⟨true, 0, 0⟩
        ⟨[true], [.ioErr, .ok (Json.obj [("result", Json.str "pong")])]⟩).connAtt = 1 ∧
    (requestM 5 "ping" [] ⟨true, 0, 0⟩
        ⟨[true], [.ioErr, .ok (Json.obj [("result", Json.str "pong")])]⟩).sends =
      [(1, "ping", []), (1, "ping", [])] ∧
    ((requestM 5 "ping" [] ⟨true, 0, 0⟩ ⟨[false], [.ioErr]⟩).sends = [(1, "ping", [])] ∧
     (requestM 5 "ping" [] ⟨true, 0, 0⟩ ⟨[false], [.ioErr]⟩).res = .error .connFailed ∧
     (requestM 5 "ping" [] ⟨true, 0, 0⟩ ⟨[false], [.ioErr]⟩).st.lastFail = 5 ∧
     (requestM 5 "ping" [] ⟨true, 0, 0⟩ ⟨[false], [.ioErr]⟩).st.connected = false) ∧
    ((requestM 5 "ping" [] ⟨true, 0, 0⟩ ⟨[true], [.ioErr, .ioErr]⟩).res = .error .connFailed ∧
     (requestM 5 "ping" [] ⟨true, 0, 0⟩ ⟨[true], [.ioErr, .ioErr]⟩).st.lastFail = 5) :=
  ⟨(client_single_retry 5 "ping" [] ⟨true, 0, 0⟩
      ⟨[true], [.ioErr, .ok (Json.obj [("result", Json.str "pong")])]⟩
      [.ok (Json.obj [("result", Json.str "pong")])] true [] rfl rfl rfl).1,
   (client_single_retry 5 "ping" [] ⟨true, 0, 0⟩
      ⟨[true], [.ioErr, .ok (Json.obj [("result", Json.str "pong")])]⟩
      [.ok (Json.obj [("result", Json.str "pong")])] true [] rfl rfl rfl).2.1 rfl,
   (client_single_retry 5 "ping" [] ⟨true, 0, 0⟩ ⟨[false], [.ioErr]⟩
      [] false [] rfl rfl rfl).2.2.1 rfl,
   (fun q => ⟨q.1, q.2.1⟩)
     ((client_single_retry 5 "ping" [] ⟨true, 0, 0⟩ ⟨[true], [.ioErr, .ioErr]⟩
        [.ioErr] true [] rfl rfl rfl).2.2.2 [] rfl rfl)⟩

/-- C8: a disconnected client whose last connection attempt failed fails
    fast inside the cooldown window — a "not reachable" error with no
    connection attempt, no transmission and the network script untouched —
    and once the cooldown has elapsed the next request performs a
    connection attempt again. -/
theorem client_cooldown (now : Nat) (m : String) (p : List (String × Json))
    (st : ClientSt) (net : Net)
    (hc : st.connected = false) (hf : st.lastFail ≠ 0) :
    (now - st.lastFail < COOLDOWN →
       requestM now m p st net = ⟨.error .notReachable, st, net, [], 0⟩) ∧
    (COOLDOWN ≤ now - st.lastFail → 1 ≤ (requestM now m p st net).connAtt) := by
  unfold requestM
  rw [hc]
  simp only [Bool.false_eq_true, if_false]
  constructor
  · intro hlt
    rw [if_pos (by simp [hf, hlt])]
  · intro hge
    rw [if_neg (by simp; intro _; omega)]
    simp only [connectOnceM]
    cases hcb : net.conns.headD false with
    | false => simp
    | true =>
      simp only [if_true]
      unfold reqProceed
      simp only [sendRecvM]
      cases hi : ({ net with conns := net.conns.tail } : Net).ios.headD .ioErr with
      | ok j => simp [reqFinish]
      | fatal e => simp
      | ioErr =>
        simp only [connectOnceM]
        cases hcb2 : ({ net with conns := net.conns.tail } : Net).conns.headD false with
        | false => simp
        | true =>
          simp only [if_true, sendRecvM]
          cases hi2 : net.ios[1]?.getD IOOut.ioErr <;> simp [hi2, reqFinish]

/-- C8 witness: with the last failure at time 10, a request at time 12 is
    refused without touching the network, while a request at time 13 (the
    cooldown elapsed) makes a connection attempt. -/
theorem client_cooldown_witness :
    requestM 12 "ping" [] ⟨false, 0, 10⟩ ⟨[], []⟩ =
      ⟨.error .notReachable, ⟨false, 0, 10⟩, ⟨[], []⟩, [], 0⟩ ∧
    1 ≤ (requestM 13 "ping" [] ⟨false, 0, 10⟩ ⟨[], []⟩).connAtt :=
  ⟨(client_cooldown 12 "ping" [] ⟨false, 0, 10⟩ ⟨[], []⟩ rfl (by decide)).1 (by decide),
   (client_cooldown 13 "ping" [] ⟨false, 0, 10⟩ ⟨[], []⟩ rfl (by decide)).2 (by decide)⟩
